import Mathlib

/-!
Shallow embedding of the side RCU reader path (`src/rcu.h` of compudj/side).

Counters are `uintptr_t` (64-bit), so all counter arithmetic is performed
modulo `2 ^ 64`.  C arrays become Lean lists; an out-of-bounds access is
modelled by returning `none` (in C it would be undefined behaviour), hence
the reader operations return `Option`.

External inputs that the kernel supplies at run time — the result of
`rseq_cpu_start()`, whether `rseq_addv()` commits or aborts, and the result
of `sched_getcpu()` — are collected in a `ReaderEnv` record passed to each
call.  Memory-ordering annotations of the C atomics are recorded as an
event trace so that claims about orderings can be stated.
-/

set_option linter.unusedVariables false

/-- Width of `uintptr_t` on the target: counters wrap modulo `2 ^ 64`. -/
def U64 : Nat := 2 ^ 64

/-- C11 memory orders used by the `__atomic_*` builtins in `rcu.h`. -/
inductive MemOrder
  | relaxed
  | consume
  | acquire
  | release
  | acq_rel
  | seq_cst
  deriving DecidableEq

/-- The four counters of `struct side_rcu_percpu_count` (rcu.h lines 23-28):
`begin`, `rseq_begin`, `end`, `rseq_end` (`end` is a Lean keyword, written
`end_`).  Each is a `uintptr_t`. -/
structure side_rcu_percpu_count where
  begin : Nat
  rseq_begin : Nat
  end_ : Nat
  rseq_end : Nat
  deriving DecidableEq

/-- `struct side_rcu_cpu_gp_state` (rcu.h lines 30-32): two periods worth of
counters; the C array `count[2]` is a list that well-formed states keep at
length 2. -/
structure side_rcu_cpu_gp_state where
  count : List side_rcu_percpu_count
  deriving DecidableEq

/-- `struct side_rcu_gp_state` (rcu.h lines 34-40).  The `pthread_mutex_t
gp_lock` field is only used by the grace-period detector in rcu.c and has no
data content, so it is omitted here. -/
structure side_rcu_gp_state where
  percpu_state : List side_rcu_cpu_gp_state
  nr_cpus : Int
  futex : Int
  period : Nat
  deriving DecidableEq

/-- Names of the four counter fields, used to describe which counter an
operation touched. -/
inductive CounterField
  | begin
  | rseq_begin
  | end_
  | rseq_end
  deriving DecidableEq

/-- Memory / syscall events emitted by the reader path, in program order,
with the memory-order annotation each C builtin carries. -/
inductive Event
  | load_period (order : MemOrder) (value : Nat)
  | rseq_cpu_start (ret : Nat)
  | rseq_addv (f : CounterField) (cpu : Nat) (period : Nat)
  | rseq_barrier
  | sched_getcpu (ret : Int)
  | atomic_add_fetch (f : CounterField) (cpu : Nat) (period : Nat) (order : MemOrder)
  | thread_fence (order : MemOrder)
  | load_futex (order : MemOrder) (value : Int)
  | store_futex (order : MemOrder) (value : Int)
  | futex_wake (n : Nat)
  deriving DecidableEq

/-- Run-time inputs of one reader operation: the CPU reported by
`rseq_cpu_start()`, whether the `rseq_addv()` critical section commits
(`true`) or aborts (`false`), and the return value of `sched_getcpu()`
(negative on failure). -/
structure ReaderEnv where
  rseq_cpu_start : Nat
  rseq_addv_ok : Bool
  sched_getcpu : Int
  deriving DecidableEq

/-- Read counter field `f` from a per-CPU count record. -/
def fieldVal (f : CounterField) (pc : side_rcu_percpu_count) : Nat :=
  match f with
  | .begin => pc.begin
  | .rseq_begin => pc.rseq_begin
  | .end_ => pc.end_
  | .rseq_end => pc.rseq_end

/-- Add 1 (mod `2 ^ 64`, `uintptr_t` arithmetic) to counter field `f`. -/
def applyField (f : CounterField) (pc : side_rcu_percpu_count) : side_rcu_percpu_count :=
  match f with
  | .begin => { pc with begin := (pc.begin + 1) % U64 }
  | .rseq_begin => { pc with rseq_begin := (pc.rseq_begin + 1) % U64 }
  | .end_ => { pc with end_ := (pc.end_ + 1) % U64 }
  | .rseq_end => { pc with rseq_end := (pc.rseq_end + 1) % U64 }

/-- The store `gp_state->percpu_state[cpu].count[period].f += 1`:
`none` models the undefined behaviour of an out-of-bounds C access. -/
def incCounter (s : side_rcu_gp_state) (cpu period : Nat) (f : CounterField) :
    Option side_rcu_gp_state :=
  match s.percpu_state[cpu]? with
  | none => none
  | some cgs =>
    match cgs.count[period]? with
    | none => none
    | some pc =>
      some { s with percpu_state :=
        s.percpu_state.set cpu { cgs with count := cgs.count.set period (applyField f pc) } }

/-- Total accessor for counter `f` of CPU `cpu`, period `p` (0 when out of
bounds); used to state frame and monotonicity properties. -/
def counterVal (s : side_rcu_gp_state) (cpu p : Nat) (f : CounterField) : Nat :=
  match s.percpu_state[cpu]? with
  | none => 0
  | some cgs =>
    match cgs.count[p]? with
    | none => 0
    | some pc => fieldVal f pc

/-- `side_rcu_wake_up_gp` (rcu.h lines 55-63): relaxed-load the futex cell;
if it is -1, relaxed-store 0 and issue one `futex(FUTEX_WAKE, 1)`.  Returns
the new state, the number of wake notifications issued, and the event
trace. -/
def side_rcu_wake_up_gp (gp_state : side_rcu_gp_state) :
    side_rcu_gp_state × Nat × List Event :=
  if gp_state.futex = -1 then
    ({ gp_state with futex := 0 }, 1,
      [Event.load_futex .relaxed gp_state.futex,
       Event.store_futex .relaxed 0,
       Event.futex_wake 1])
  else
    (gp_state, 0, [Event.load_futex .relaxed gp_state.futex])

/-- Fallback tail of `side_rcu_read_begin` (rcu.h lines 93-99): `cpu =
sched_getcpu()`, clamped to 0 when negative, then a SEQ_CST
`__atomic_add_fetch` of the plain `begin` counter of the captured period.
`tr` is the trace accumulated before reaching the fallback. -/
def side_rcu_read_begin_fallback (e : ReaderEnv) (gp_state : side_rcu_gp_state)
    (period : Nat) (tr : List Event) :
    Option (side_rcu_gp_state × Nat × List Event) :=
  let cpu := if e.sched_getcpu < 0 then 0 else e.sched_getcpu.toNat
  match incCounter gp_state cpu period .begin with
  | none => none
  | some s =>
    some (s, period,
      tr ++ [Event.sched_getcpu e.sched_getcpu,
             Event.atomic_add_fetch .begin cpu period .seq_cst])

/-- `side_rcu_read_begin` (rcu.h lines 65-100).  Loads `gp_state->period`
once with relaxed ordering; if `side_rcu_rseq_membarrier_available` is
nonzero, attempts a restartable add of `rseq_begin` on the CPU returned by
`rseq_cpu_start()` (followed by `rseq_barrier()`, barrier A); on abort or
when the capability is absent, falls back to the SEQ_CST atomic add.
Returns the new state, the ticket, and the event trace. -/
def side_rcu_read_begin (side_rcu_rseq_membarrier_available : Nat) (e : ReaderEnv)
    (gp_state : side_rcu_gp_state) :
    Option (side_rcu_gp_state × Nat × List Event) :=
  let period := gp_state.period
  if side_rcu_rseq_membarrier_available ≠ 0 then
    let cpu := e.rseq_cpu_start
    if e.rseq_addv_ok then
      match incCounter gp_state cpu period .rseq_begin with
      | none => none
      | some s =>
        some (s, period,
          [Event.load_period .relaxed period,
           Event.rseq_cpu_start cpu,
           Event.rseq_addv .rseq_begin cpu period,
           Event.rseq_barrier])
    else
      side_rcu_read_begin_fallback e gp_state period
        [Event.load_period .relaxed period, Event.rseq_cpu_start cpu]
  else
    side_rcu_read_begin_fallback e gp_state period
      [Event.load_period .relaxed period]

/-- Fallback tail of `side_rcu_read_end` (rcu.h lines 135-148): clamped
`sched_getcpu()`, SEQ_CST `__atomic_add_fetch` of the plain `end` counter of
period `period`, a SEQ_CST thread fence (barrier F), then
`side_rcu_wake_up_gp`. -/
def side_rcu_read_end_fallback (e : ReaderEnv) (gp_state : side_rcu_gp_state)
    (period : Nat) (tr : List Event) :
    Option (side_rcu_gp_state × Nat × List Event) :=
  let cpu := if e.sched_getcpu < 0 then 0 else e.sched_getcpu.toNat
  match incCounter gp_state cpu period .end_ with
  | none => none
  | some s =>
    let w := side_rcu_wake_up_gp s
    some (w.1, w.2.1,
      (tr ++ [Event.sched_getcpu e.sched_getcpu,
              Event.atomic_add_fetch .end_ cpu period .seq_cst,
              Event.thread_fence .seq_cst]) ++ w.2.2)

/-- `side_rcu_read_end` (rcu.h lines 102-149).  The ticket `period` is the
caller's argument; the current `gp_state->period` is never reloaded.  On the
fast path: `rseq_barrier()` (barrier B), `rseq_cpu_start()`, restartable add
of `rseq_end`, `rseq_barrier()` (barrier F) on success; on abort or missing
capability, the SEQ_CST fallback.  Both paths end in
`side_rcu_wake_up_gp`. -/
def side_rcu_read_end (side_rcu_rseq_membarrier_available : Nat) (e : ReaderEnv)
    (gp_state : side_rcu_gp_state) (period : Nat) :
    Option (side_rcu_gp_state × Nat × List Event) :=
  if side_rcu_rseq_membarrier_available ≠ 0 then
    let cpu := e.rseq_cpu_start
    if e.rseq_addv_ok then
      match incCounter gp_state cpu period .rseq_end with
      | none => none
      | some s =>
        let w := side_rcu_wake_up_gp s
        some (w.1, w.2.1,
          [Event.rseq_barrier,
           Event.rseq_cpu_start cpu,
           Event.rseq_addv .rseq_end cpu period,
           Event.rseq_barrier] ++ w.2.2)
    else
      side_rcu_read_end_fallback e gp_state period
        [Event.rseq_barrier, Event.rseq_cpu_start cpu]
  else
    side_rcu_read_end_fallback e gp_state period []

/-- Events emitted by the pointer publish/consume macros. -/
inductive PtrEvent
  | load (order : MemOrder)
  | store (order : MemOrder)
  deriving DecidableEq

/-- `side_rcu_dereference(p)` (rcu.h lines 151-156):
`__atomic_load_n(&(p), __ATOMIC_CONSUME)`; returns the loaded value and the
event performed. -/
def side_rcu_dereference (p : α) : α × PtrEvent :=
  (p, PtrEvent.load .consume)

/-- `side_rcu_assign_pointer(p, v)` (rcu.h line 158):
`__atomic_store_n(&(p), v, __ATOMIC_RELEASE)`; returns the new value of the
pointer cell and the event performed. -/
def side_rcu_assign_pointer (p v : α) : α × PtrEvent :=
  (v, PtrEvent.store .release)

/-- Modelled from the spec: the body of `side_rcu_wait_grace_period` lives in
rcu.c, which is not part of this tree (rcu.h line 160 only declares it).
Spec section 4.2 step 4: the per-CPU target snapshotted for period `p` is the
sum of (begin + begin-fast), i.e. `begin + rseq_begin`, in `uintptr_t`
arithmetic. -/
def side_rcu_gp_read_begin_sum (s : side_rcu_gp_state) (cpu p : Nat) : Nat :=
  match s.percpu_state[cpu]? with
  | none => 0
  | some cgs =>
    match cgs.count[p]? with
    | none => 0
    | some pc => (pc.begin + pc.rseq_begin) % U64

/-- Modelled from the spec: spec section 4.2 step 5 compares, per CPU, the
current sum of (end + end-fast), i.e. `end + rseq_end`, for period `p`. -/
def side_rcu_gp_read_end_sum (s : side_rcu_gp_state) (cpu p : Nat) : Nat :=
  match s.percpu_state[cpu]? with
  | none => 0
  | some cgs =>
    match cgs.count[p]? with
    | none => 0
    | some pc => (pc.end_ + pc.rseq_end) % U64

/-- Modelled from the spec: the quiescence test of spec section 4.2 step 5 —
every CPU's current (end + end-fast) sum for period `p` equals the target
snapshotted for it at step 4. -/
def side_rcu_gp_quiesced (snapshot : List Nat) (s : side_rcu_gp_state) (p : Nat) : Bool :=
  (List.range s.percpu_state.length).all
    (fun cpu => side_rcu_gp_read_end_sum s cpu p == snapshot.getD cpu 0)

/-- Modelled from the spec: the wait loop of spec section 4.2 step 5.  The
stream `states` gives the counter state observed at each successive poll
(concurrent readers may change it between polls); the loop returns the first
polled state in which every CPU has caught up with its snapshotted target,
and `none` when `fuel` polls were not enough. -/
def side_rcu_wait_grace_period_poll (snapshot : List Nat) (p : Nat) :
    Nat → (Nat → side_rcu_gp_state) → Option side_rcu_gp_state
  | 0, _ => none
  | Nat.succ fuel, states =>
    if side_rcu_gp_quiesced snapshot (states 0) p then
      some (states 0)
    else
      side_rcu_wait_grace_period_poll snapshot p fuel (fun n => states (n + 1))

/-- Modelled from the spec: `side_rcu_wait_grace_period` (declared at rcu.h
line 160, body in rcu.c, not in this tree), restricted to its counter
algorithm, spec section 4.2 steps 2, 4 and 5: record the active period,
snapshot each CPU's (begin + begin-fast) sum for it, and poll until every
CPU's (end + end-fast) sum has caught up.  Locking, fences, the futex sleep
and the final period flip carry no counter content and are not modelled. -/
def side_rcu_wait_grace_period (fuel : Nat) (states : Nat → side_rcu_gp_state) :
    Option side_rcu_gp_state :=
  let s0 := states 0
  let snapshot := (List.range s0.percpu_state.length).map
    (fun cpu => side_rcu_gp_read_begin_sum s0 cpu s0.period)
  side_rcu_wait_grace_period_poll snapshot s0.period fuel states

/-! ### Helper lemmas about `incCounter` -/

theorem fieldVal_applyField_self (f : CounterField) (pc : side_rcu_percpu_count) :
    fieldVal f (applyField f pc) = (fieldVal f pc + 1) % U64 := by
  cases f <;> rfl

theorem fieldVal_applyField_ne (f g : CounterField) (pc : side_rcu_percpu_count)
    (h : g ≠ f) : fieldVal g (applyField f pc) = fieldVal g pc := by
  cases f <;> cases g <;> first | rfl | exact absurd rfl h

theorem incCounter_inv {s s' : side_rcu_gp_state} {cpu p : Nat} {f : CounterField}
    (h : incCounter s cpu p f = some s') :
    ∃ cgs pc, s.percpu_state[cpu]? = some cgs ∧ cgs.count[p]? = some pc ∧
      s' = { s with percpu_state :=
        s.percpu_state.set cpu { cgs with count := cgs.count.set p (applyField f pc) } } := by
  cases h1 : s.percpu_state[cpu]? with
  | none => simp [incCounter, h1] at h
  | some cgs =>
    cases h2 : cgs.count[p]? with
    | none => simp [incCounter, h1, h2] at h
    | some pc =>
      simp only [incCounter, h1, h2, Option.some.injEq] at h
      exact ⟨cgs, pc, rfl, h2, h.symm⟩

theorem incCounter_some (f : CounterField) {s : side_rcu_gp_state} {cpu p : Nat}
    (hcpu : cpu < s.percpu_state.length)
    (hw : ∀ cgs ∈ s.percpu_state, cgs.count.length = 2) (hp : p < 2) :
    ∃ s', incCounter s cpu p f = some s' := by
  have h1 : s.percpu_state[cpu]? = some s.percpu_state[cpu] :=
    List.getElem?_eq_getElem hcpu
  have hmem := List.getElem_mem hcpu
  have hlen : (s.percpu_state[cpu]).count.length = 2 := hw _ hmem
  have hp2 : p < (s.percpu_state[cpu]).count.length := by omega
  have h2 : (s.percpu_state[cpu]).count[p]? = some (s.percpu_state[cpu]).count[p] :=
    List.getElem?_eq_getElem hp2
  cases hI : incCounter s cpu p f with
  | none => simp [incCounter, h1, h2] at hI
  | some s₁ => exact ⟨s₁, rfl⟩

theorem incCounter_frame_fields {s s' : side_rcu_gp_state} {cpu p : Nat} {f : CounterField}
    (h : incCounter s cpu p f = some s') :
    s'.futex = s.futex ∧ s'.period = s.period ∧ s'.nr_cpus = s.nr_cpus ∧
      s'.percpu_state.length = s.percpu_state.length := by
  obtain ⟨cgs, pc, h1, h2, rfl⟩ := incCounter_inv h
  simp

theorem counterVal_incCounter_self {s s' : side_rcu_gp_state} {cpu p : Nat} {f : CounterField}
    (h : incCounter s cpu p f = some s') :
    counterVal s' cpu p f = (counterVal s cpu p f + 1) % U64 := by
  obtain ⟨cgs, pc, h1, h2, rfl⟩ := incCounter_inv h
  have hc : cpu < s.percpu_state.length := (List.getElem?_eq_some_iff.1 h1).1
  have hp : p < cgs.count.length := (List.getElem?_eq_some_iff.1 h2).1
  simp [counterVal, List.getElem?_set_self hc, List.getElem?_set_self hp, h1, h2,
    fieldVal_applyField_self]

theorem counterVal_incCounter_frame {s s' : side_rcu_gp_state} {cpu p : Nat} {f : CounterField}
    (h : incCounter s cpu p f = some s') (c q : Nat) (g : CounterField)
    (hne : ¬(c = cpu ∧ q = p ∧ g = f)) :
    counterVal s' c q g = counterVal s c q g := by
  obtain ⟨cgs, pc, h1, h2, rfl⟩ := incCounter_inv h
  have hc : cpu < s.percpu_state.length := (List.getElem?_eq_some_iff.1 h1).1
  have hp : p < cgs.count.length := (List.getElem?_eq_some_iff.1 h2).1
  by_cases hcc : c = cpu
  · subst hcc
    by_cases hqq : q = p
    · subst hqq
      have hg : g ≠ f := by
        intro hgf
        exact hne ⟨rfl, rfl, hgf⟩
      simp [counterVal, List.getElem?_set_self hc, List.getElem?_set_self hp, h1, h2,
        fieldVal_applyField_ne f g pc hg]
    · simp [counterVal, List.getElem?_set_self hc, h1,
        List.getElem?_set_ne (fun hpq => hqq hpq.symm)]
  · simp [counterVal, List.getElem?_set_ne (fun hx => hcc hx.symm)]

theorem incCounter_preserves_WF {s s' : side_rcu_gp_state} {cpu p : Nat} {f : CounterField}
    (h : incCounter s cpu p f = some s')
    (hw : ∀ cgs ∈ s.percpu_state, cgs.count.length = 2) :
    ∀ cgs ∈ s'.percpu_state, cgs.count.length = 2 := by
  obtain ⟨cgs, pc, h1, h2, rfl⟩ := incCounter_inv h
  have hc : cpu < s.percpu_state.length := (List.getElem?_eq_some_iff.1 h1).1
  have hmem : cgs ∈ s.percpu_state := by
    have := (List.getElem?_eq_some_iff.1 h1)
    obtain ⟨hlt, hget⟩ := this
    exact hget ▸ List.getElem_mem hlt
  intro cgs' hmem'
  rcases List.mem_or_eq_of_mem_set hmem' with hin | rfl
  · exact hw _ hin
  · simp [List.length_set, hw _ hmem]

/-! ### Path characterizations of the reader operations -/

theorem side_rcu_read_begin_fast_eq (avail : Nat) (e : ReaderEnv) (s : side_rcu_gp_state)
    (hA : avail ≠ 0) (hC : e.rseq_addv_ok = true) :
    side_rcu_read_begin avail e s =
      (incCounter s e.rseq_cpu_start s.period .rseq_begin).map
        (fun s₁ => (s₁, s.period,
          [Event.load_period .relaxed s.period,
           Event.rseq_cpu_start e.rseq_cpu_start,
           Event.rseq_addv .rseq_begin e.rseq_cpu_start s.period,
           Event.rseq_barrier])) := by
  simp only [side_rcu_read_begin, if_pos hA, hC, if_true]
  cases incCounter s e.rseq_cpu_start s.period .rseq_begin <;> rfl

theorem side_rcu_read_begin_fallback_eq (e : ReaderEnv) (s : side_rcu_gp_state)
    (period : Nat) (tr : List Event) :
    side_rcu_read_begin_fallback e s period tr =
      (incCounter s (if e.sched_getcpu < 0 then 0 else e.sched_getcpu.toNat) period
          .begin).map
        (fun s₁ => (s₁, period,
          tr ++ [Event.sched_getcpu e.sched_getcpu,
                 Event.atomic_add_fetch .begin
                   (if e.sched_getcpu < 0 then 0 else e.sched_getcpu.toNat) period
                   .seq_cst])) := by
  simp only [side_rcu_read_begin_fallback]
  cases incCounter s (if e.sched_getcpu < 0 then 0 else e.sched_getcpu.toNat) period
    .begin <;> rfl

theorem side_rcu_read_begin_eq_fallback (avail : Nat) (e : ReaderEnv) (s : side_rcu_gp_state)
    (h : avail = 0 ∨ e.rseq_addv_ok = false) :
    side_rcu_read_begin avail e s =
      side_rcu_read_begin_fallback e s s.period
        (Event.load_period .relaxed s.period ::
          (if avail ≠ 0 then [Event.rseq_cpu_start e.rseq_cpu_start] else [])) := by
  rcases h with h | h
  · subst h
    simp [side_rcu_read_begin]
  · by_cases hA : avail ≠ 0
    · simp [side_rcu_read_begin, if_pos hA, h]
    · simp only [ne_eq, not_not] at hA
      subst hA
      simp [side_rcu_read_begin]

theorem side_rcu_read_end_fast_eq (avail : Nat) (e : ReaderEnv) (s : side_rcu_gp_state)
    (period : Nat) (hA : avail ≠ 0) (hC : e.rseq_addv_ok = true) :
    side_rcu_read_end avail e s period =
      (incCounter s e.rseq_cpu_start period .rseq_end).map
        (fun s₁ => ((side_rcu_wake_up_gp s₁).1, (side_rcu_wake_up_gp s₁).2.1,
          [Event.rseq_barrier,
           Event.rseq_cpu_start e.rseq_cpu_start,
           Event.rseq_addv .rseq_end e.rseq_cpu_start period,
           Event.rseq_barrier] ++ (side_rcu_wake_up_gp s₁).2.2)) := by
  simp only [side_rcu_read_end, if_pos hA, hC, if_true]
  cases incCounter s e.rseq_cpu_start period .rseq_end <;> rfl

theorem side_rcu_read_end_fallback_eq (e : ReaderEnv) (s : side_rcu_gp_state)
    (period : Nat) (tr : List Event) :
    side_rcu_read_end_fallback e s period tr =
      (incCounter s (if e.sched_getcpu < 0 then 0 else e.sched_getcpu.toNat) period
          .end_).map
        (fun s₁ => ((side_rcu_wake_up_gp s₁).1, (side_rcu_wake_up_gp s₁).2.1,
          (tr ++ [Event.sched_getcpu e.sched_getcpu,
                  Event.atomic_add_fetch .end_
                    (if e.sched_getcpu < 0 then 0 else e.sched_getcpu.toNat) period
                    .seq_cst,
                  Event.thread_fence .seq_cst]) ++ (side_rcu_wake_up_gp s₁).2.2)) := by
  simp only [side_rcu_read_end_fallback]
  cases incCounter s (if e.sched_getcpu < 0 then 0 else e.sched_getcpu.toNat) period
    .end_ <;> rfl

theorem side_rcu_read_end_eq_fallback (avail : Nat) (e : ReaderEnv) (s : side_rcu_gp_state)
    (period : Nat) (h : avail = 0 ∨ e.rseq_addv_ok = false) :
    side_rcu_read_end avail e s period =
      side_rcu_read_end_fallback e s period
        (if avail ≠ 0 then [Event.rseq_barrier, Event.rseq_cpu_start e.rseq_cpu_start]
         else []) := by
  rcases h with h | h
  · subst h
    simp [side_rcu_read_end]
  · by_cases hA : avail ≠ 0
    · simp [side_rcu_read_end, if_pos hA, h]
    · simp only [ne_eq, not_not] at hA
      subst hA
      simp [side_rcu_read_end]

/-! ### Trace observables -/

/-- Recognizes a load of `gp_state->period` in a trace. -/
def isLoadPeriodEvent : Event → Bool
  | .load_period _ _ => true
  | _ => false

/-! ### Claim C2 -/

/-- C2: `side_rcu_read_begin` returns exactly the value of
`gp_state->period` loaded once with relaxed ordering at entry (rcu.h line
68), on both the fast path and the fallback path: the first event of the
trace is that relaxed load, it is the only period load in the trace, and
the ticket is the captured period value, unchanged. -/
theorem side_rcu_read_begin_ticket_eq_entry_period
    (avail : Nat) (e : ReaderEnv) (s s' : side_rcu_gp_state) (t : Nat) (tr : List Event)
    (h : side_rcu_read_begin avail e s = some (s', t, tr)) :
    t = s.period ∧
    tr.head? = some (Event.load_period MemOrder.relaxed s.period) ∧
    tr.countP isLoadPeriodEvent = 1 := by
  by_cases hA : avail ≠ 0
  · by_cases hC : e.rseq_addv_ok
    · rw [side_rcu_read_begin_fast_eq avail e s hA hC] at h
      cases hI : incCounter s e.rseq_cpu_start s.period .rseq_begin with
      | none => rw [hI] at h; cases h
      | some s₁ =>
        rw [hI] at h
        simp only [Option.map_some', Option.some.injEq, Prod.mk.injEq] at h
        obtain ⟨hs, ht, htr⟩ := h
        subst ht
        subst htr
        refine ⟨rfl, rfl, ?_⟩
        simp [List.countP_cons, List.countP_nil, isLoadPeriodEvent]
    · have hfb := side_rcu_read_begin_eq_fallback avail e s (Or.inr (by
        cases hcv : e.rseq_addv_ok
        · rfl
        · exact absurd hcv hC))
      rw [hfb, side_rcu_read_begin_fallback_eq] at h
      cases hI : incCounter s (if e.sched_getcpu < 0 then 0 else e.sched_getcpu.toNat)
          s.period .begin with
      | none => rw [hI] at h; cases h
      | some s₁ =>
        rw [hI] at h
        simp only [Option.map_some', Option.some.injEq, Prod.mk.injEq] at h
        obtain ⟨hs, ht, htr⟩ := h
        subst ht
        subst htr
        refine ⟨rfl, ?_, ?_⟩
        · simp [hA]
        · simp [hA, List.countP_cons, List.countP_nil, isLoadPeriodEvent]
  · have hfb := side_rcu_read_begin_eq_fallback avail e s (Or.inl (by omega))
    rw [hfb, side_rcu_read_begin_fallback_eq] at h
    cases hI : incCounter s (if e.sched_getcpu < 0 then 0 else e.sched_getcpu.toNat)
        s.period .begin with
    | none => rw [hI] at h; cases h
    | some s₁ =>
      rw [hI] at h
      simp only [Option.map_some', Option.some.injEq, Prod.mk.injEq] at h
      obtain ⟨hs, ht, htr⟩ := h
      subst ht
      subst htr
      refine ⟨rfl, ?_, ?_⟩
      · simp [hA]
      · simp [hA, List.countP_cons, List.countP_nil, isLoadPeriodEvent]

/-! ### Wake-channel helper lemmas -/

theorem side_rcu_wake_up_gp_percpu (s : side_rcu_gp_state) :
    (side_rcu_wake_up_gp s).1.percpu_state = s.percpu_state ∧
    (side_rcu_wake_up_gp s).1.period = s.period ∧
    (side_rcu_wake_up_gp s).1.nr_cpus = s.nr_cpus := by
  unfold side_rcu_wake_up_gp
  split <;> simp

theorem counterVal_congr_percpu {s s' : side_rcu_gp_state}
    (h : s'.percpu_state = s.percpu_state) (cpu p : Nat) (f : CounterField) :
    counterVal s' cpu p f = counterVal s cpu p f := by
  unfold counterVal
  rw [h]

theorem side_rcu_wake_up_gp_no_period_load (s : side_rcu_gp_state) :
    (side_rcu_wake_up_gp s).2.2.countP isLoadPeriodEvent = 0 := by
  unfold side_rcu_wake_up_gp
  split <;> simp [isLoadPeriodEvent, List.countP_cons, List.countP_nil]

/-! ### Claim C4 -/

/-- C4: for every ticket `t` passed to `side_rcu_read_end`, the function
increments an end counter — `rseq_end` on the fast path, plain `end` on the
fallback — of the counter set for period `t` on some CPU; it never reloads
the current `gp_state->period` (its trace has no period-load event) and
never touches any `begin`/`rseq_begin` counter, so begin and end may be
recorded on different CPUs but always under the same period `t`. -/
theorem side_rcu_read_end_increments_end_for_ticket_period
    (avail : Nat) (e : ReaderEnv) (s s' : side_rcu_gp_state) (t n : Nat) (tr : List Event)
    (h : side_rcu_read_end avail e s t = some (s', n, tr)) :
    (∃ cpu f, (f = CounterField.rseq_end ∨ f = CounterField.end_) ∧
       counterVal s' cpu t f = (counterVal s cpu t f + 1) % U64) ∧
    (∀ cpu p,
       counterVal s' cpu p CounterField.begin = counterVal s cpu p CounterField.begin ∧
       counterVal s' cpu p CounterField.rseq_begin
         = counterVal s cpu p CounterField.rseq_begin) ∧
    tr.countP isLoadPeriodEvent = 0 := by
  have main : ∀ (cpu₀ : Nat) (f₀ : CounterField) (s₁ : side_rcu_gp_state) (tr₀ : List Event),
      (f₀ = CounterField.rseq_end ∨ f₀ = CounterField.end_) →
      incCounter s cpu₀ t f₀ = some s₁ →
      s' = (side_rcu_wake_up_gp s₁).1 →
      tr = tr₀ ++ (side_rcu_wake_up_gp s₁).2.2 →
      tr₀.countP isLoadPeriodEvent = 0 →
      (∃ cpu f, (f = CounterField.rseq_end ∨ f = CounterField.end_) ∧
         counterVal s' cpu t f = (counterVal s cpu t f + 1) % U64) ∧
      (∀ cpu p,
         counterVal s' cpu p CounterField.begin = counterVal s cpu p CounterField.begin ∧
         counterVal s' cpu p CounterField.rseq_begin
           = counterVal s cpu p CounterField.rseq_begin) ∧
      tr.countP isLoadPeriodEvent = 0 := by
    intro cpu₀ f₀ s₁ tr₀ hf hI hs' htr htr₀
    have hpc := (side_rcu_wake_up_gp_percpu s₁).1
    have hcv : ∀ c q g, counterVal s' c q g = counterVal s₁ c q g := by
      intro c q g
      rw [hs']
      exact counterVal_congr_percpu hpc c q g
    refine ⟨⟨cpu₀, f₀, hf, ?_⟩, ?_, ?_⟩
    · rw [hcv]
      exact counterVal_incCounter_self hI
    · intro cpu p
      constructor
      · rw [hcv]
        refine counterVal_incCounter_frame hI cpu p CounterField.begin ?_
        rintro ⟨-, -, hg⟩
        rcases hf with hf | hf <;> simp [hf] at hg
      · rw [hcv]
        refine counterVal_incCounter_frame hI cpu p CounterField.rseq_begin ?_
        rintro ⟨-, -, hg⟩
        rcases hf with hf | hf <;> simp [hf] at hg
    · rw [htr]
      rw [List.countP_append, htr₀, side_rcu_wake_up_gp_no_period_load]
  by_cases hA : avail ≠ 0
  · by_cases hC : e.rseq_addv_ok
    · rw [side_rcu_read_end_fast_eq avail e s t hA hC] at h
      cases hI : incCounter s e.rseq_cpu_start t .rseq_end with
      | none => rw [hI] at h; cases h
      | some s₁ =>
        rw [hI] at h
        simp only [Option.map_some', Option.some.injEq, Prod.mk.injEq] at h
        obtain ⟨hs, hn, htr⟩ := h
        exact main e.rseq_cpu_start CounterField.rseq_end s₁ _ (Or.inl rfl) hI hs.symm
          htr.symm (by simp [isLoadPeriodEvent, List.countP_cons, List.countP_nil])
    · have hfb := side_rcu_read_end_eq_fallback avail e s t (Or.inr (by
        cases hcv : e.rseq_addv_ok
        · rfl
        · exact absurd hcv hC))
      rw [hfb, side_rcu_read_end_fallback_eq] at h
      cases hI : incCounter s (if e.sched_getcpu < 0 then 0 else e.sched_getcpu.toNat)
          t .end_ with
      | none => rw [hI] at h; cases h
      | some s₁ =>
        rw [hI] at h
        simp only [Option.map_some', Option.some.injEq, Prod.mk.injEq] at h
        obtain ⟨hs, hn, htr⟩ := h
        exact main _ CounterField.end_ s₁ _ (Or.inr rfl) hI hs.symm htr.symm
          (by simp [hA, isLoadPeriodEvent, List.countP_cons, List.countP_nil,
            List.countP_append])
  · have hfb := side_rcu_read_end_eq_fallback avail e s t (Or.inl (by omega))
    rw [hfb, side_rcu_read_end_fallback_eq] at h
    cases hI : incCounter s (if e.sched_getcpu < 0 then 0 else e.sched_getcpu.toNat)
        t .end_ with
    | none => rw [hI] at h; cases h
    | some s₁ =>
      rw [hI] at h
      simp only [Option.map_some', Option.some.injEq, Prod.mk.injEq] at h
      obtain ⟨hs, hn, htr⟩ := h
      exact main _ CounterField.end_ s₁ _ (Or.inr rfl) hI hs.symm htr.symm
        (by simp [hA, isLoadPeriodEvent, List.countP_cons, List.countP_nil,
          List.countP_append])

/-! ### Claim C9 -/

/-- C9: each single call to `side_rcu_read_begin` or `side_rcu_read_end`
increments exactly one of the four counters, of exactly one CPU's counter
set, for exactly one period, by exactly 1 (in `uintptr_t` arithmetic), and
leaves every other counter of every CPU and period unchanged; neither
function modifies `gp_state->period` or `gp_state->nr_cpus`, the
`percpu_state` array keeps its shape (same length, each CPU's `count` array
unchanged in length), and `side_rcu_read_begin` never modifies the futex
cell. -/
theorem side_rcu_reader_frame_effect
    (avail : Nat) (e e₂ : ReaderEnv) (s s₂ s' s₂' : side_rcu_gp_state)
    (t p n : Nat) (tr tr₂ : List Event)
    (hb : side_rcu_read_begin avail e s = some (s', t, tr))
    (he : side_rcu_read_end avail e₂ s₂ p = some (s₂', n, tr₂)) :
    ((∃ cpu f, (f = CounterField.begin ∨ f = CounterField.rseq_begin) ∧
        counterVal s' cpu s.period f = (counterVal s cpu s.period f + 1) % U64 ∧
        ∀ c q g, ¬(c = cpu ∧ q = s.period ∧ g = f) →
          counterVal s' c q g = counterVal s c q g) ∧
      s'.period = s.period ∧ s'.nr_cpus = s.nr_cpus ∧ s'.futex = s.futex ∧
      s'.percpu_state.length = s.percpu_state.length) ∧
    ((∃ cpu f, (f = CounterField.end_ ∨ f = CounterField.rseq_end) ∧
        counterVal s₂' cpu p f = (counterVal s₂ cpu p f + 1) % U64 ∧
        ∀ c q g, ¬(c = cpu ∧ q = p ∧ g = f) →
          counterVal s₂' c q g = counterVal s₂ c q g) ∧
      s₂'.period = s₂.period ∧ s₂'.nr_cpus = s₂.nr_cpus ∧
      s₂'.percpu_state.length = s₂.percpu_state.length) := by
  constructor
  · have main : ∀ (cpu₀ : Nat) (f₀ : CounterField) (s₁ : side_rcu_gp_state),
        (f₀ = CounterField.begin ∨ f₀ = CounterField.rseq_begin) →
        incCounter s cpu₀ s.period f₀ = some s₁ → s' = s₁ →
        (∃ cpu f, (f = CounterField.begin ∨ f = CounterField.rseq_begin) ∧
           counterVal s' cpu s.period f = (counterVal s cpu s.period f + 1) % U64 ∧
           ∀ c q g, ¬(c = cpu ∧ q = s.period ∧ g = f) →
             counterVal s' c q g = counterVal s c q g) ∧
        s'.period = s.period ∧ s'.nr_cpus = s.nr_cpus ∧ s'.futex = s.futex ∧
        s'.percpu_state.length = s.percpu_state.length := by
      intro cpu₀ f₀ s₁ hf hI hs'
      subst hs'
      obtain ⟨hfu, hpe, hnc, hlen⟩ := incCounter_frame_fields hI
      refine ⟨⟨cpu₀, f₀, hf, counterVal_incCounter_self hI, ?_⟩, hpe, hnc, hfu, hlen⟩
      intro c q g hne
      exact counterVal_incCounter_frame hI c q g hne
    by_cases hA : avail ≠ 0
    · by_cases hC : e.rseq_addv_ok
      · rw [side_rcu_read_begin_fast_eq avail e s hA hC] at hb
        cases hI : incCounter s e.rseq_cpu_start s.period .rseq_begin with
        | none => rw [hI] at hb; cases hb
        | some s₁ =>
          rw [hI] at hb
          simp only [Option.map_some', Option.some.injEq, Prod.mk.injEq] at hb
          exact main e.rseq_cpu_start CounterField.rseq_begin s₁ (Or.inr rfl) hI hb.1.symm
      · have hfb := side_rcu_read_begin_eq_fallback avail e s (Or.inr (by
          cases hcv : e.rseq_addv_ok
          · rfl
          · exact absurd hcv hC))
        rw [hfb, side_rcu_read_begin_fallback_eq] at hb
        cases hI : incCounter s (if e.sched_getcpu < 0 then 0 else e.sched_getcpu.toNat)
            s.period .begin with
        | none => rw [hI] at hb; cases hb
        | some s₁ =>
          rw [hI] at hb
          simp only [Option.map_some', Option.some.injEq, Prod.mk.injEq] at hb
          exact main _ CounterField.begin s₁ (Or.inl rfl) hI hb.1.symm
    · have hfb := side_rcu_read_begin_eq_fallback avail e s (Or.inl (by omega))
      rw [hfb, side_rcu_read_begin_fallback_eq] at hb
      cases hI : incCounter s (if e.sched_getcpu < 0 then 0 else e.sched_getcpu.toNat)
          s.period .begin with
      | none => rw [hI] at hb; cases hb
      | some s₁ =>
        rw [hI] at hb
        simp only [Option.map_some', Option.some.injEq, Prod.mk.injEq] at hb
        exact main _ CounterField.begin s₁ (Or.inl rfl) hI hb.1.symm
  · have main : ∀ (cpu₀ : Nat) (f₀ : CounterField) (s₁ : side_rcu_gp_state),
        (f₀ = CounterField.end_ ∨ f₀ = CounterField.rseq_end) →
        incCounter s₂ cpu₀ p f₀ = some s₁ → s₂' = (side_rcu_wake_up_gp s₁).1 →
        (∃ cpu f, (f = CounterField.end_ ∨ f = CounterField.rseq_end) ∧
           counterVal s₂' cpu p f = (counterVal s₂ cpu p f + 1) % U64 ∧
           ∀ c q g, ¬(c = cpu ∧ q = p ∧ g = f) →
             counterVal s₂' c q g = counterVal s₂ c q g) ∧
        s₂'.period = s₂.period ∧ s₂'.nr_cpus = s₂.nr_cpus ∧
        s₂'.percpu_state.length = s₂.percpu_state.length := by
      intro cpu₀ f₀ s₁ hf hI hs'
      obtain ⟨hpc, hpe₁, hnc₁⟩ := side_rcu_wake_up_gp_percpu s₁
      obtain ⟨hfu, hpe, hnc, hlen⟩ := incCounter_frame_fields hI
      have hcv : ∀ c q g, counterVal s₂' c q g = counterVal s₁ c q g := by
        intro c q g
        rw [hs']
        exact counterVal_congr_percpu hpc c q g
      refine ⟨⟨cpu₀, f₀, hf, ?_, ?_⟩, ?_, ?_, ?_⟩
      · rw [hcv]
        exact counterVal_incCounter_self hI
      · intro c q g hne
        rw [hcv]
        exact counterVal_incCounter_frame hI c q g hne
      · rw [hs', hpe₁, hpe]
      · rw [hs', hnc₁, hnc]
      · rw [hs', hpc, hlen]
    by_cases hA : avail ≠ 0
    · by_cases hC : e₂.rseq_addv_ok
      · rw [side_rcu_read_end_fast_eq avail e₂ s₂ p hA hC] at he
        cases hI : incCounter s₂ e₂.rseq_cpu_start p .rseq_end with
        | none => rw [hI] at he; cases he
        | some s₁ =>
          rw [hI] at he
          simp only [Option.map_some', Option.some.injEq, Prod.mk.injEq] at he
          exact main e₂.rseq_cpu_start CounterField.rseq_end s₁ (Or.inr rfl) hI he.1.symm
      · have hfb := side_rcu_read_end_eq_fallback avail e₂ s₂ p (Or.inr (by
          cases hcv : e₂.rseq_addv_ok
          · rfl
          · exact absurd hcv hC))
        rw [hfb, side_rcu_read_end_fallback_eq] at he
        cases hI : incCounter s₂ (if e₂.sched_getcpu < 0 then 0 else e₂.sched_getcpu.toNat)
            p .end_ with
        | none => rw [hI] at he; cases he
        | some s₁ =>
          rw [hI] at he
          simp only [Option.map_some', Option.some.injEq, Prod.mk.injEq] at he
          exact main _ CounterField.end_ s₁ (Or.inl rfl) hI he.1.symm
    · have hfb := side_rcu_read_end_eq_fallback avail e₂ s₂ p (Or.inl (by omega))
      rw [hfb, side_rcu_read_end_fallback_eq] at he
      cases hI : incCounter s₂ (if e₂.sched_getcpu < 0 then 0 else e₂.sched_getcpu.toNat)
          p .end_ with
      | none => rw [hI] at he; cases he
      | some s₁ =>
        rw [hI] at he
        simp only [Option.map_some', Option.some.injEq, Prod.mk.injEq] at he
        exact main _ CounterField.end_ s₁ (Or.inl rfl) hI he.1.symm

/-! ### Claim C5 -/

/-- Recognizes the end-counter increment of `side_rcu_read_end` in a trace:
the restartable add of `rseq_end` or the atomic add of `end`. -/
def isEndIncrement : Event → Bool
  | .rseq_addv CounterField.rseq_end _ _ => true
  | .atomic_add_fetch CounterField.end_ _ _ _ => true
  | _ => false

/-- C5: every call to `side_rcu_read_end`, on both the fast path and the
fallback path, inspects the futex cell after its end-counter increment (the
relaxed futex load follows the increment in trace order); if and only if
the cell holds the sleeping value -1, it resets the cell to the idle value
0 and issues exactly one wake-one notification (`futex(FUTEX_WAKE, 1)`);
otherwise it leaves the cell unchanged and issues no wake. -/
theorem side_rcu_read_end_wakes_iff_futex_sleeping
    (avail : Nat) (e : ReaderEnv) (s s' : side_rcu_gp_state) (t n : Nat) (tr : List Event)
    (h : side_rcu_read_end avail e s t = some (s', n, tr)) :
    (∃ tr₁ tr₂, tr = tr₁ ++ Event.load_futex MemOrder.relaxed s.futex :: tr₂ ∧
       tr₁.any isEndIncrement = true ∧
       tr₂ = if s.futex = -1
         then [Event.store_futex MemOrder.relaxed 0, Event.futex_wake 1]
         else []) ∧
    (if s.futex = -1 then s'.futex = 0 ∧ n = 1 else s'.futex = s.futex ∧ n = 0) := by
  have main : ∀ (s₁ : side_rcu_gp_state) (tr₀ : List Event),
      s₁.futex = s.futex →
      tr₀.any isEndIncrement = true →
      s' = (side_rcu_wake_up_gp s₁).1 →
      n = (side_rcu_wake_up_gp s₁).2.1 →
      tr = tr₀ ++ (side_rcu_wake_up_gp s₁).2.2 →
      (∃ tr₁ tr₂, tr = tr₁ ++ Event.load_futex MemOrder.relaxed s.futex :: tr₂ ∧
         tr₁.any isEndIncrement = true ∧
         tr₂ = if s.futex = -1
           then [Event.store_futex MemOrder.relaxed 0, Event.futex_wake 1]
           else []) ∧
      (if s.futex = -1 then s'.futex = 0 ∧ n = 1 else s'.futex = s.futex ∧ n = 0) := by
    intro s₁ tr₀ hfu hinc hs' hn htr
    by_cases hF : s.futex = -1
    · have hF₁ : s₁.futex = -1 := by rw [hfu, hF]
      refine ⟨⟨tr₀, [Event.store_futex MemOrder.relaxed 0, Event.futex_wake 1], ?_, hinc,
          by rw [if_pos hF]⟩, ?_⟩
      · rw [htr]
        unfold side_rcu_wake_up_gp
        rw [if_pos hF₁, hfu]
      · rw [if_pos hF, hs', hn]
        unfold side_rcu_wake_up_gp
        rw [if_pos hF₁]
        exact ⟨rfl, rfl⟩
    · have hF₁ : ¬s₁.futex = -1 := by rw [hfu]; exact hF
      refine ⟨⟨tr₀, [], ?_, hinc, by rw [if_neg hF]⟩, ?_⟩
      · rw [htr]
        unfold side_rcu_wake_up_gp
        rw [if_neg hF₁, hfu]
      · rw [if_neg hF, hs', hn]
        unfold side_rcu_wake_up_gp
        rw [if_neg hF₁]
        exact ⟨hfu, rfl⟩
  by_cases hA : avail ≠ 0
  · by_cases hC : e.rseq_addv_ok
    · rw [side_rcu_read_end_fast_eq avail e s t hA hC] at h
      cases hI : incCounter s e.rseq_cpu_start t .rseq_end with
      | none => rw [hI] at h; cases h
      | some s₁ =>
        rw [hI] at h
        simp only [Option.map_some', Option.some.injEq, Prod.mk.injEq] at h
        obtain ⟨hs, hn, htr⟩ := h
        exact main s₁ _ (incCounter_frame_fields hI).1 (by simp [isEndIncrement])
          hs.symm hn.symm htr.symm
    · have hfb := side_rcu_read_end_eq_fallback avail e s t (Or.inr (by
        cases hcv : e.rseq_addv_ok
        · rfl
        · exact absurd hcv hC))
      rw [hfb, side_rcu_read_end_fallback_eq] at h
      cases hI : incCounter s (if e.sched_getcpu < 0 then 0 else e.sched_getcpu.toNat)
          t .end_ with
      | none => rw [hI] at h; cases h
      | some s₁ =>
        rw [hI] at h
        simp only [Option.map_some', Option.some.injEq, Prod.mk.injEq] at h
        obtain ⟨hs, hn, htr⟩ := h
        exact main s₁ _ (incCounter_frame_fields hI).1 (by simp [hA, isEndIncrement])
          hs.symm hn.symm htr.symm
  · have hfb := side_rcu_read_end_eq_fallback avail e s t (Or.inl (by omega))
    rw [hfb, side_rcu_read_end_fallback_eq] at h
    cases hI : incCounter s (if e.sched_getcpu < 0 then 0 else e.sched_getcpu.toNat)
        t .end_ with
    | none => rw [hI] at h; cases h
    | some s₁ =>
      rw [hI] at h
      simp only [Option.map_some', Option.some.injEq, Prod.mk.injEq] at h
      obtain ⟨hs, hn, htr⟩ := h
      exact main s₁ _ (incCounter_frame_fields hI).1 (by simp [hA, isEndIncrement])
        hs.symm hn.symm htr.symm

/-! ### Claim C7 -/

/-- C7: under the well-formedness bounds of the state, `side_rcu_read_begin`
always returns a ticket and `side_rcu_read_end` always returns — neither
exposes an error value; and when `sched_getcpu()` fails (negative result)
the operation silently proceeds using CPU 0's counters: the resulting state
and return value are those obtained with `sched_getcpu()` returning 0. -/
theorem side_rcu_reader_no_observable_failure
    (avail : Nat) (e : ReaderEnv) (s : side_rcu_gp_state) (t : Nat)
    (hw : ∀ cgs ∈ s.percpu_state, cgs.count.length = 2)
    (hper : s.period < 2) (ht : t < 2)
    (hrseq : e.rseq_cpu_start < s.percpu_state.length)
    (hget : (if e.sched_getcpu < 0 then 0 else e.sched_getcpu.toNat)
      < s.percpu_state.length) :
    (side_rcu_read_begin avail e s).isSome = true ∧
    (side_rcu_read_end avail e s t).isSome = true ∧
    (e.sched_getcpu < 0 →
      (side_rcu_read_begin avail e s).map (fun r => (r.1, r.2.1)) =
        (side_rcu_read_begin avail ⟨e.rseq_cpu_start, e.rseq_addv_ok, 0⟩ s).map
          (fun r => (r.1, r.2.1)) ∧
      (side_rcu_read_end avail e s t).map (fun r => (r.1, r.2.1)) =
        (side_rcu_read_end avail ⟨e.rseq_cpu_start, e.rseq_addv_ok, 0⟩ s t).map
          (fun r => (r.1, r.2.1))) := by
  have hclamp0 : (if (0 : Int) < 0 then 0 else (0 : Int).toNat) = 0 := by simp
  by_cases hA : avail ≠ 0
  · by_cases hC : e.rseq_addv_ok
    · obtain ⟨s₁, hI⟩ := incCounter_some CounterField.rseq_begin hrseq hw hper
      obtain ⟨s₂, hI₂⟩ := incCounter_some CounterField.rseq_end hrseq hw ht
      refine ⟨?_, ?_, ?_⟩
      · rw [side_rcu_read_begin_fast_eq avail e s hA hC, hI]
        rfl
      · rw [side_rcu_read_end_fast_eq avail e s t hA hC, hI₂]
        rfl
      · intro hneg
        constructor
        · rw [side_rcu_read_begin_fast_eq avail e s hA hC,
            side_rcu_read_begin_fast_eq avail ⟨e.rseq_cpu_start, e.rseq_addv_ok, 0⟩ s hA hC]
        · rw [side_rcu_read_end_fast_eq avail e s t hA hC,
            side_rcu_read_end_fast_eq avail ⟨e.rseq_cpu_start, e.rseq_addv_ok, 0⟩ s t hA hC]
    · have hor : avail = 0 ∨ e.rseq_addv_ok = false := Or.inr (by
        cases hcv : e.rseq_addv_ok
        · rfl
        · exact absurd hcv hC)
      obtain ⟨s₁, hI⟩ := incCounter_some CounterField.begin hget hw hper
      obtain ⟨s₂, hI₂⟩ := incCounter_some CounterField.end_ hget hw ht
      refine ⟨?_, ?_, ?_⟩
      · rw [side_rcu_read_begin_eq_fallback avail e s hor,
          side_rcu_read_begin_fallback_eq, hI]
        rfl
      · rw [side_rcu_read_end_eq_fallback avail e s t hor,
          side_rcu_read_end_fallback_eq, hI₂]
        rfl
      · intro hneg
        have hcl : (if e.sched_getcpu < 0 then 0 else e.sched_getcpu.toNat) = 0 :=
          if_pos hneg
        rw [hcl] at hI hI₂
        constructor
        · rw [side_rcu_read_begin_eq_fallback avail e s hor,
            side_rcu_read_begin_eq_fallback avail ⟨e.rseq_cpu_start, e.rseq_addv_ok, 0⟩ s hor,
            side_rcu_read_begin_fallback_eq, side_rcu_read_begin_fallback_eq]
          simp only [hcl, hclamp0]
          rw [hI]
          rfl
        · rw [side_rcu_read_end_eq_fallback avail e s t hor,
            side_rcu_read_end_eq_fallback avail ⟨e.rseq_cpu_start, e.rseq_addv_ok, 0⟩ s t hor,
            side_rcu_read_end_fallback_eq, side_rcu_read_end_fallback_eq]
          simp only [hcl, hclamp0]
          rw [hI₂]
          rfl
  · have hor : avail = 0 ∨ e.rseq_addv_ok = false := Or.inl (by omega)
    obtain ⟨s₁, hI⟩ := incCounter_some CounterField.begin hget hw hper
    obtain ⟨s₂, hI₂⟩ := incCounter_some CounterField.end_ hget hw ht
    refine ⟨?_, ?_, ?_⟩
    · rw [side_rcu_read_begin_eq_fallback avail e s hor,
        side_rcu_read_begin_fallback_eq, hI]
      rfl
    · rw [side_rcu_read_end_eq_fallback avail e s t hor,
        side_rcu_read_end_fallback_eq, hI₂]
      rfl
    · intro hneg
      have hcl : (if e.sched_getcpu < 0 then 0 else e.sched_getcpu.toNat) = 0 :=
        if_pos hneg
      rw [hcl] at hI hI₂
      constructor
      · rw [side_rcu_read_begin_eq_fallback avail e s hor,
          side_rcu_read_begin_eq_fallback avail ⟨e.rseq_cpu_start, e.rseq_addv_ok, 0⟩ s hor,
          side_rcu_read_begin_fallback_eq, side_rcu_read_begin_fallback_eq]
        simp only [hcl, hclamp0]
        rw [hI]
        rfl
      · rw [side_rcu_read_end_eq_fallback avail e s t hor,
          side_rcu_read_end_eq_fallback avail ⟨e.rseq_cpu_start, e.rseq_addv_ok, 0⟩ s t hor,
          side_rcu_read_end_fallback_eq, side_rcu_read_end_fallback_eq]
        simp only [hcl, hclamp0]
        rw [hI₂]
        rfl

/-! ### Shape of the reader operations (shared helper) -/

theorem side_rcu_read_begin_shape (avail : Nat) (e : ReaderEnv) (s : side_rcu_gp_state) :
    ∃ cpu f tr,
      (f = CounterField.rseq_begin ∧ cpu = e.rseq_cpu_start ∨
       f = CounterField.begin ∧
         cpu = (if e.sched_getcpu < 0 then 0 else e.sched_getcpu.toNat)) ∧
      side_rcu_read_begin avail e s =
        (incCounter s cpu s.period f).map (fun s₁ => (s₁, s.period, tr)) := by
  by_cases hA : avail ≠ 0
  · by_cases hC : e.rseq_addv_ok
    · exact ⟨_, _, _, Or.inl ⟨rfl, rfl⟩, side_rcu_read_begin_fast_eq avail e s hA hC⟩
    · have heq := side_rcu_read_begin_eq_fallback avail e s (Or.inr (by
          cases hcv : e.rseq_addv_ok
          · rfl
          · exact absurd hcv hC))
      rw [side_rcu_read_begin_fallback_eq] at heq
      exact ⟨_, _, _, Or.inr ⟨rfl, rfl⟩, heq⟩
  · have heq := side_rcu_read_begin_eq_fallback avail e s (Or.inl (by omega))
    rw [side_rcu_read_begin_fallback_eq] at heq
    exact ⟨_, _, _, Or.inr ⟨rfl, rfl⟩, heq⟩

theorem side_rcu_read_end_shape (avail : Nat) (e : ReaderEnv) (s : side_rcu_gp_state)
    (p : Nat) :
    ∃ cpu f tr,
      (f = CounterField.rseq_end ∧ cpu = e.rseq_cpu_start ∨
       f = CounterField.end_ ∧
         cpu = (if e.sched_getcpu < 0 then 0 else e.sched_getcpu.toNat)) ∧
      side_rcu_read_end avail e s p =
        (incCounter s cpu p f).map
          (fun s₁ => ((side_rcu_wake_up_gp s₁).1, (side_rcu_wake_up_gp s₁).2.1,
            tr ++ (side_rcu_wake_up_gp s₁).2.2)) := by
  by_cases hA : avail ≠ 0
  · by_cases hC : e.rseq_addv_ok
    · exact ⟨_, _, _, Or.inl ⟨rfl, rfl⟩, side_rcu_read_end_fast_eq avail e s p hA hC⟩
    · have heq := side_rcu_read_end_eq_fallback avail e s p (Or.inr (by
          cases hcv : e.rseq_addv_ok
          · rfl
          · exact absurd hcv hC))
      rw [side_rcu_read_end_fallback_eq] at heq
      exact ⟨_, _, _, Or.inr ⟨rfl, rfl⟩, heq⟩
  · have heq := side_rcu_read_end_eq_fallback avail e s p (Or.inl (by omega))
    rw [side_rcu_read_end_fallback_eq] at heq
    exact ⟨_, _, _, Or.inr ⟨rfl, rfl⟩, heq⟩

/-! ### Claim C10 -/

/-- C10: under the preconditions that `gp_state->period` is 0 or 1, that the
`percpu_state` array has `nr_cpus` entries of two periods each, that the
CPU ids obtained from `rseq_cpu_start()` and from `sched_getcpu()` (after
clamping negatives to 0) are below the array length, and that the ticket
passed to `side_rcu_read_end` is the one returned by `side_rcu_read_begin`
on the same state, every array access in `side_rcu_read_begin` and
`side_rcu_read_end` is in bounds: neither operation hits the out-of-bounds
(`none`) case. -/
theorem side_rcu_reader_array_accesses_in_bounds
    (avail : Nat) (e₁ e₂ : ReaderEnv) (s : side_rcu_gp_state)
    (hper : s.period = 0 ∨ s.period = 1)
    (hlen : (s.percpu_state.length : Int) = s.nr_cpus)
    (hw : ∀ cgs ∈ s.percpu_state, cgs.count.length = 2)
    (h1 : e₁.rseq_cpu_start < s.percpu_state.length)
    (h2 : (if e₁.sched_getcpu < 0 then 0 else e₁.sched_getcpu.toNat)
      < s.percpu_state.length)
    (h3 : e₂.rseq_cpu_start < s.percpu_state.length)
    (h4 : (if e₂.sched_getcpu < 0 then 0 else e₂.sched_getcpu.toNat)
      < s.percpu_state.length) :
    ∃ s₁ t tr₁, side_rcu_read_begin avail e₁ s = some (s₁, t, tr₁) ∧
      (side_rcu_read_end avail e₂ s₁ t).isSome = true := by
  have hper2 : s.period < 2 := by omega
  obtain ⟨cpu, f, tr, hcf, heq⟩ := side_rcu_read_begin_shape avail e₁ s
  have hcpu : cpu < s.percpu_state.length := by
    rcases hcf with ⟨-, rfl⟩ | ⟨-, rfl⟩
    · exact h1
    · exact h2
  obtain ⟨s₁, hI⟩ := incCounter_some f hcpu hw hper2
  have hb : side_rcu_read_begin avail e₁ s = some (s₁, s.period, tr) := by
    rw [heq, hI]
    rfl
  obtain ⟨cpu', f', tr', hcf', heq'⟩ := side_rcu_read_end_shape avail e₂ s₁ s.period
  have hlen₁ : s₁.percpu_state.length = s.percpu_state.length :=
    (incCounter_frame_fields hI).2.2.2
  have hw₁ : ∀ cgs ∈ s₁.percpu_state, cgs.count.length = 2 :=
    incCounter_preserves_WF hI hw
  have hcpu' : cpu' < s₁.percpu_state.length := by
    rw [hlen₁]
    rcases hcf' with ⟨-, rfl⟩ | ⟨-, rfl⟩
    · exact h3
    · exact h4
  obtain ⟨s₂, hI₂⟩ := incCounter_some f' hcpu' hw₁ hper2
  refine ⟨s₁, s.period, tr, hb, ?_⟩
  rw [heq', hI₂]
  rfl

/-! ### Claim C8 -/

/-- Concrete per-CPU count whose plain `begin` counter for period 0 holds
the maximal `uintptr_t` value. -/
def pcMax : side_rcu_percpu_count := ⟨U64 - 1, 0, 0, 0⟩

/-- Concrete state for the counter-wrap counterexample: one CPU, period 0
active, `begin` counter of period 0 at `2 ^ 64 - 1`. -/
def sWrap : side_rcu_gp_state := ⟨[⟨[pcMax, pcMax]⟩], 1, 0, 0⟩

/-- Environment forcing the fallback path with `sched_getcpu() = 0`. -/
def eWrap : ReaderEnv := ⟨0, false, 0⟩

/-- The state `sWrap` after the wrapping `side_rcu_read_begin`. -/
def sWrap' : side_rcu_gp_state := ⟨[⟨[⟨0, 0, 0, 0⟩, pcMax]⟩], 1, 0, 0⟩

/-- C8 counterexample: with CPU 0's plain `begin` counter for period 0 at
the maximal `uintptr_t` value `2 ^ 64 - 1`, a fallback
`side_rcu_read_begin` wraps it to 0: the counter decreases, refuting the
claim that no reader operation ever decreases any counter. -/
theorem side_rcu_counter_wrap_decreases :
    side_rcu_read_begin 0 eWrap sWrap =
      some (sWrap', 0,
        [Event.load_period MemOrder.relaxed 0, Event.sched_getcpu 0,
         Event.atomic_add_fetch CounterField.begin 0 0 MemOrder.seq_cst]) ∧
    counterVal sWrap' 0 0 CounterField.begin
      < counterVal sWrap 0 0 CounterField.begin := by
  constructor
  · rfl
  · decide

/-- C8 amended: each reader operation adds exactly 1 in `uintptr_t`
arithmetic (modulo `2 ^ 64`) to exactly one counter; provided every counter
of the state is strictly below `2 ^ 64 - 1`, no operation of the reader path
(`side_rcu_read_begin`, `side_rcu_read_end`) decreases any counter: all four
per-CPU per-period counters are monotonically non-decreasing. -/
theorem side_rcu_counters_nondecreasing_below_max
    (avail : Nat) (e : ReaderEnv) (s : side_rcu_gp_state) (t : Nat)
    (hmax : ∀ cpu p f, counterVal s cpu p f < U64 - 1) :
    (∀ s' t' tr, side_rcu_read_begin avail e s = some (s', t', tr) →
       ∀ cpu p f, counterVal s cpu p f ≤ counterVal s' cpu p f) ∧
    (∀ s' n tr, side_rcu_read_end avail e s t = some (s', n, tr) →
       ∀ cpu p f, counterVal s cpu p f ≤ counterVal s' cpu p f) := by
  have step : ∀ (cpu₀ p₀ : Nat) (f₀ : CounterField) (s₁ : side_rcu_gp_state),
      incCounter s cpu₀ p₀ f₀ = some s₁ →
      ∀ cpu p f, counterVal s cpu p f ≤ counterVal s₁ cpu p f := by
    intro cpu₀ p₀ f₀ s₁ hI cpu p f
    by_cases hsame : cpu = cpu₀ ∧ p = p₀ ∧ f = f₀
    · obtain ⟨rfl, rfl, rfl⟩ := hsame
      rw [counterVal_incCounter_self hI]
      have hlt : counterVal s cpu p f < U64 - 1 := hmax cpu p f
      have : (counterVal s cpu p f + 1) % U64 = counterVal s cpu p f + 1 := by
        apply Nat.mod_eq_of_lt
        have : 0 < U64 := by decide
        omega
      omega
    · rw [counterVal_incCounter_frame hI cpu p f hsame]
  constructor
  · intro s' t' tr h
    obtain ⟨cpu₀, f₀, tr₀, hcf, heq⟩ := side_rcu_read_begin_shape avail e s
    rw [heq] at h
    rcases Option.map_eq_some'.1 h with ⟨s₁, hI, hres⟩
    cases hres
    exact step _ _ _ _ hI
  · intro s' n tr h
    obtain ⟨cpu₀, f₀, tr₀, hcf, heq⟩ := side_rcu_read_end_shape avail e s t
    rw [heq] at h
    rcases Option.map_eq_some'.1 h with ⟨s₁, hI, hres⟩
    have hpc := (side_rcu_wake_up_gp_percpu s₁).1
    cases hres
    intro cpu p f
    rw [counterVal_congr_percpu hpc]
    exact step _ _ _ _ hI cpu p f

/-! ### Claim C6 -/

/-- C6 counterexample: `side_rcu_dereference` performs its load with
`__ATOMIC_CONSUME` (rcu.h line 154), not with load-acquire: at the concrete
cell value 0 the event it performs is not an acquire load. -/
theorem side_rcu_dereference_is_not_acquire :
    (side_rcu_dereference (0 : Nat)).2 ≠ PtrEvent.load MemOrder.acquire := by
  decide

/-- C6 amended: the publish operation `side_rcu_assign_pointer` stores the
shared handle with store-release ordering, and `side_rcu_dereference` loads
it with load-consume ordering (`__ATOMIC_CONSUME`, dependency ordering, a
weaker guarantee than acquire that still orders the initialization of the
pointed-to version before any dependent access through the loaded address);
the consumed value is the published handle, unchanged. -/
theorem side_rcu_publish_release_consume (α : Type) (p v : α) :
    side_rcu_assign_pointer p v = (v, PtrEvent.store MemOrder.release) ∧
    side_rcu_dereference p = (p, PtrEvent.load MemOrder.consume) :=
  ⟨rfl, rfl⟩

/-! ### Claim C1 -/

theorem side_rcu_wait_grace_period_poll_quiesced (snapshot : List Nat) (p : Nat) :
    ∀ (fuel : Nat) (states : Nat → side_rcu_gp_state) (s : side_rcu_gp_state),
      side_rcu_wait_grace_period_poll snapshot p fuel states = some s →
      side_rcu_gp_quiesced snapshot s p = true := by
  intro fuel
  induction fuel with
  | zero =>
    intro states s h
    simp [side_rcu_wait_grace_period_poll] at h
  | succ n ih =>
    intro states s h
    simp only [side_rcu_wait_grace_period_poll] at h
    split at h
    · rename_i hc
      cases h
      exact hc
    · exact ih _ s h

/-- C1 (modelled from the spec, detector body in rcu.c): the wait loop of
`side_rcu_wait_grace_period` does not return while any CPU's
(end + end-fast) sum for the period active at entry still lags the
(begin + begin-fast) sum snapshotted for that CPU at entry; whenever it
returns a state, every CPU's end sums in that state have caught up with the
snapshotted begin sums — every reader that could have observed the active
period before the call has exited its critical section. -/
theorem side_rcu_wait_grace_period_waits_for_readers
    (fuel : Nat) (states : Nat → side_rcu_gp_state) (s : side_rcu_gp_state)
    (h : side_rcu_wait_grace_period fuel states = some s)
    (cpu : Nat) (hcpu : cpu < s.percpu_state.length)
    (hcpu0 : cpu < (states 0).percpu_state.length) :
    side_rcu_gp_read_end_sum s cpu (states 0).period =
      side_rcu_gp_read_begin_sum (states 0) cpu (states 0).period := by
  simp only [side_rcu_wait_grace_period] at h
  have hq := side_rcu_wait_grace_period_poll_quiesced _ _ fuel states s h
  rw [side_rcu_gp_quiesced, List.all_eq_true] at hq
  have hcq := hq cpu (List.mem_range.2 hcpu)
  rw [beq_iff_eq] at hcq
  rw [hcq, List.getD_eq_getElem?_getD, List.getElem?_map, List.getElem?_range hcpu0]
  rfl

/-! ### Claim C3 -/

/-- C3: when the fast-path capability flag is unset or the restartable
increment aborts, `side_rcu_read_begin` queries the current CPU with
`sched_getcpu()`, uses CPU 0 if the query fails (negative result), and
performs a sequentially-consistent atomic increment by 1 of that CPU's
plain `begin` counter for the captured period (rcu.h lines 93-99). -/
theorem side_rcu_read_begin_fallback_clamped_seq_cst_add
    (avail : Nat) (e : ReaderEnv) (s : side_rcu_gp_state)
    (h : avail = 0 ∨ e.rseq_addv_ok = false) :
    ∃ tr₀, side_rcu_read_begin avail e s =
      (incCounter s (if e.sched_getcpu < 0 then 0 else e.sched_getcpu.toNat) s.period
          CounterField.begin).map
        (fun s₁ => (s₁, s.period,
          tr₀ ++ [Event.sched_getcpu e.sched_getcpu,
                  Event.atomic_add_fetch CounterField.begin
                    (if e.sched_getcpu < 0 then 0 else e.sched_getcpu.toNat) s.period
                    MemOrder.seq_cst])) := by
  have heq := side_rcu_read_begin_eq_fallback avail e s h
  rw [side_rcu_read_begin_fallback_eq] at heq
  exact ⟨_, heq⟩

/-! ### Concrete inputs for the witnesses -/

/-- All-zero per-CPU count record. -/
def pcZero : side_rcu_percpu_count := ⟨0, 0, 0, 0⟩

/-- Concrete well-formed state: one CPU, both periods zeroed, futex idle,
period 0 active. -/
def sOne : side_rcu_gp_state := ⟨[⟨[pcZero, pcZero]⟩], 1, 0, 0⟩

/-- Fast-path environment: rseq commits on CPU 0. -/
def eFast : ReaderEnv := ⟨0, true, 0⟩

/-- Fallback environment: rseq aborts and `sched_getcpu()` fails. -/
def eFb : ReaderEnv := ⟨0, false, -1⟩

/-- `sOne` after a fast-path `side_rcu_read_begin`. -/
def sOneBegun : side_rcu_gp_state := ⟨[⟨[⟨0, 1, 0, 0⟩, pcZero]⟩], 1, 0, 0⟩

/-- `sOne` after a fallback `side_rcu_read_end` with ticket 0. -/
def sOneEnded : side_rcu_gp_state := ⟨[⟨[⟨0, 0, 1, 0⟩, pcZero]⟩], 1, 0, 0⟩

/-- Trace of the fast-path `side_rcu_read_begin` at `eFast`, `sOne`. -/
def trBegin : List Event :=
  [Event.load_period MemOrder.relaxed 0, Event.rseq_cpu_start 0,
   Event.rseq_addv CounterField.rseq_begin 0 0, Event.rseq_barrier]

/-- Trace of the fallback `side_rcu_read_end` at `eFb`, `sOne`, ticket 0,
capability absent. -/
def trEnd : List Event :=
  [Event.sched_getcpu (-1), Event.atomic_add_fetch CounterField.end_ 0 0 MemOrder.seq_cst,
   Event.thread_fence MemOrder.seq_cst, Event.load_futex MemOrder.relaxed 0]

/-- Trace of the fallback `side_rcu_read_end` at `eFb`, `sOne`, ticket 0,
capability present (rseq aborts). -/
def trEndFb : List Event :=
  [Event.rseq_barrier, Event.rseq_cpu_start 0, Event.sched_getcpu (-1),
   Event.atomic_add_fetch CounterField.end_ 0 0 MemOrder.seq_cst,
   Event.thread_fence MemOrder.seq_cst, Event.load_futex MemOrder.relaxed 0]

/-- `sOne` with the futex cell in the sleeping state. -/
def sSleep : side_rcu_gp_state := ⟨[⟨[pcZero, pcZero]⟩], 1, -1, 0⟩

/-- `sSleep` after a fast-path `side_rcu_read_end` (futex reset to idle). -/
def sSleepEnded : side_rcu_gp_state := ⟨[⟨[⟨0, 0, 0, 1⟩, pcZero]⟩], 1, 0, 0⟩

/-- Trace of the fast-path `side_rcu_read_end` at `eFast`, `sSleep`,
ticket 0, including the wake of the sleeping detector. -/
def trEndFast : List Event :=
  [Event.rseq_barrier, Event.rseq_cpu_start 0,
   Event.rseq_addv CounterField.rseq_end 0 0, Event.rseq_barrier,
   Event.load_futex MemOrder.relaxed (-1), Event.store_futex MemOrder.relaxed 0,
   Event.futex_wake 1]

theorem counterVal_sOne_eq_zero (cpu p : Nat) (f : CounterField) :
    counterVal sOne cpu p f = 0 := by
  match cpu, p with
  | 0, 0 => cases f <;> rfl
  | 0, Nat.succ (Nat.succ n) => rfl
  | 0, 1 => cases f <;> rfl
  | Nat.succ m, p => rfl

/-! ### Witnesses -/

/-- Witness for C2 at a concrete fast-path call. -/
theorem side_rcu_read_begin_ticket_eq_entry_period_witness :
    (0 : Nat) = sOne.period ∧
    trBegin.head? = some (Event.load_period MemOrder.relaxed sOne.period) ∧
    trBegin.countP isLoadPeriodEvent = 1 :=
  side_rcu_read_begin_ticket_eq_entry_period 1 eFast sOne sOneBegun 0 trBegin rfl

/-- Witness for C3 at a concrete call with capability absent and a failing
`sched_getcpu()`. -/
theorem side_rcu_read_begin_fallback_clamped_seq_cst_add_witness :
    ∃ tr₀, side_rcu_read_begin 0 eFb sOne =
      (incCounter sOne (if eFb.sched_getcpu < 0 then 0 else eFb.sched_getcpu.toNat)
          sOne.period CounterField.begin).map
        (fun s₁ => (s₁, sOne.period,
          tr₀ ++ [Event.sched_getcpu eFb.sched_getcpu,
                  Event.atomic_add_fetch CounterField.begin
                    (if eFb.sched_getcpu < 0 then 0 else eFb.sched_getcpu.toNat)
                    sOne.period MemOrder.seq_cst])) :=
  side_rcu_read_begin_fallback_clamped_seq_cst_add 0 eFb sOne (Or.inl rfl)

/-- Witness for C4 at a concrete fallback call. -/
theorem side_rcu_read_end_increments_end_for_ticket_period_witness :
    (∃ cpu f, (f = CounterField.rseq_end ∨ f = CounterField.end_) ∧
       counterVal sOneEnded cpu 0 f = (counterVal sOne cpu 0 f + 1) % U64) ∧
    (∀ cpu p,
       counterVal sOneEnded cpu p CounterField.begin
         = counterVal sOne cpu p CounterField.begin ∧
       counterVal sOneEnded cpu p CounterField.rseq_begin
         = counterVal sOne cpu p CounterField.rseq_begin) ∧
    trEnd.countP isLoadPeriodEvent = 0 :=
  side_rcu_read_end_increments_end_for_ticket_period 0 eFb sOne sOneEnded 0 0 trEnd rfl

/-- Witness for C5 at a concrete fast-path call with a sleeping detector. -/
theorem side_rcu_read_end_wakes_iff_futex_sleeping_witness :
    (∃ tr₁ tr₂,
       trEndFast = tr₁ ++ Event.load_futex MemOrder.relaxed sSleep.futex :: tr₂ ∧
       tr₁.any isEndIncrement = true ∧
       tr₂ = if sSleep.futex = -1
         then [Event.store_futex MemOrder.relaxed 0, Event.futex_wake 1]
         else []) ∧
    (if sSleep.futex = -1 then sSleepEnded.futex = 0 ∧ 1 = 1
     else sSleepEnded.futex = sSleep.futex ∧ 1 = 0) :=
  side_rcu_read_end_wakes_iff_futex_sleeping 1 eFast sSleep sSleepEnded 0 1 trEndFast rfl

/-- Witness for C7 at a concrete call with a failing `sched_getcpu()`. -/
theorem side_rcu_reader_no_observable_failure_witness :
    (side_rcu_read_begin 0 eFb sOne).isSome = true ∧
    (side_rcu_read_end 0 eFb sOne 0).isSome = true ∧
    (eFb.sched_getcpu < 0 →
      (side_rcu_read_begin 0 eFb sOne).map (fun r => (r.1, r.2.1)) =
        (side_rcu_read_begin 0 ⟨eFb.rseq_cpu_start, eFb.rseq_addv_ok, 0⟩ sOne).map
          (fun r => (r.1, r.2.1)) ∧
      (side_rcu_read_end 0 eFb sOne 0).map (fun r => (r.1, r.2.1)) =
        (side_rcu_read_end 0 ⟨eFb.rseq_cpu_start, eFb.rseq_addv_ok, 0⟩ sOne 0).map
          (fun r => (r.1, r.2.1))) :=
  side_rcu_reader_no_observable_failure 0 eFb sOne 0 (by decide) (by decide) (by decide)
    (by decide) (by decide)

/-- Witness for C9 at a concrete begin/end pair. -/
theorem side_rcu_reader_frame_effect_witness :
    ((∃ cpu f, (f = CounterField.begin ∨ f = CounterField.rseq_begin) ∧
        counterVal sOneBegun cpu sOne.period f
          = (counterVal sOne cpu sOne.period f + 1) % U64 ∧
        ∀ c q g, ¬(c = cpu ∧ q = sOne.period ∧ g = f) →
          counterVal sOneBegun c q g = counterVal sOne c q g) ∧
      sOneBegun.period = sOne.period ∧ sOneBegun.nr_cpus = sOne.nr_cpus ∧
      sOneBegun.futex = sOne.futex ∧
      sOneBegun.percpu_state.length = sOne.percpu_state.length) ∧
    ((∃ cpu f, (f = CounterField.end_ ∨ f = CounterField.rseq_end) ∧
        counterVal sOneEnded cpu 0 f = (counterVal sOne cpu 0 f + 1) % U64 ∧
        ∀ c q g, ¬(c = cpu ∧ q = 0 ∧ g = f) →
          counterVal sOneEnded c q g = counterVal sOne c q g) ∧
      sOneEnded.period = sOne.period ∧ sOneEnded.nr_cpus = sOne.nr_cpus ∧
      sOneEnded.percpu_state.length = sOne.percpu_state.length) :=
  side_rcu_reader_frame_effect 1 eFast eFb sOne sOne sOneBegun sOneEnded 0 0 0
    trBegin trEndFb rfl rfl

/-- Witness for C10 at a concrete begin/end pair. -/
theorem side_rcu_reader_array_accesses_in_bounds_witness :
    ∃ s₁ t tr₁, side_rcu_read_begin 1 eFast sOne = some (s₁, t, tr₁) ∧
      (side_rcu_read_end 1 eFb s₁ t).isSome = true :=
  side_rcu_reader_array_accesses_in_bounds 1 eFast eFb sOne (Or.inl rfl) (by decide)
    (by decide) (by decide) (by decide) (by decide) (by decide)

/-- Witness for the amended C8 at a concrete all-zero state. -/
theorem side_rcu_counters_nondecreasing_below_max_witness :
    (∀ s' t' tr, side_rcu_read_begin 1 eFast sOne = some (s', t', tr) →
       ∀ cpu p f, counterVal sOne cpu p f ≤ counterVal s' cpu p f) ∧
    (∀ s' n tr, side_rcu_read_end 1 eFast sOne 0 = some (s', n, tr) →
       ∀ cpu p f, counterVal sOne cpu p f ≤ counterVal s' cpu p f) :=
  side_rcu_counters_nondecreasing_below_max 1 eFast sOne 0 (by
    intro cpu p f
    rw [counterVal_sOne_eq_zero]
    decide)

/-- Witness for C1 at a concrete already-quiescent state. -/
theorem side_rcu_wait_grace_period_waits_for_readers_witness :
    side_rcu_gp_read_end_sum sOne 0 sOne.period =
      side_rcu_gp_read_begin_sum sOne 0 sOne.period :=
  side_rcu_wait_grace_period_waits_for_readers 1 (fun _ => sOne) sOne rfl 0 (by decide)
    (by decide)
